import Mathlib

/-!
# Verification of the qxl.dialog `MForm` mixin

A shallow embedding of `src/source/class/qxl/dialog/MForm.js` (the dynamic
form builder of the qxl.dialog library) together with proofs about its
behaviour.  JavaScript objects used as string-keyed maps are embedded as
association lists with JS-object semantics (keys in insertion order,
assignment updates in place or appends).  Mutation of the mixin's instance
state is embedded as explicit state passing on `MFormState`; calls into the
qooxdoo toolkit and into user-supplied handler functions are recorded as
`Action`s in an event trace, and exceptions are returned as an `Option
String` alongside the mutated state (JavaScript mutations performed before a
`throw` persist, so a failing call still returns the partially updated
state).
-/

namespace QxlDialog

/-- JavaScript values as they occur in `formData` field descriptions:
`undefined`, `null`, booleans, numbers and strings. -/
inductive JsVal where
  | vUndef
  | vNull
  | vBool (b : Bool)
  | vInt (n : Int)
  | vStr (s : String)
deriving DecidableEq, Repr

/-- A JavaScript object used as a string-keyed map: an association list in
insertion order. -/
abbrev JsMap (α : Type) : Type := List (String × α)

/-- Property read `m[k]`: the first entry with the given key. -/
def jsGet {α : Type} : JsMap α → String → Option α
  | [], _ => none
  | p :: rest, k => if p.1 = k then some p.2 else jsGet rest k

/-- Property write `m[k] = v`: update the entry in place when the key is
present, append it otherwise (JS object assignment semantics). -/
def jsSet {α : Type} : JsMap α → String → α → JsMap α
  | [], k, v => [(k, v)]
  | p :: rest, k, v => if p.1 = k then (k, v) :: rest else p :: jsSet rest k v

/-- `Object.getOwnPropertyNames m`: the keys in insertion order. -/
def jsKeys {α : Type} (m : JsMap α) : List String :=
  m.map Prod.fst

/-! ## Data model of `MForm.js` -/

/-- A toolkit form element (`qx.ui.form.IForm` widget) as observed by the
`MForm` code: an object identity plus the properties that
`_applyFormData` sets on it.  The widget-internal rendering state belongs to
the qooxdoo toolkit and is outside the embedding. -/
structure Element where
  elemId : Nat
  userData : JsMap JsVal := []
  required : Bool := false
  width : Option Int := none
  placeholder : Option String := none
  toolTipText : Option String := none
  enabled : Option Bool := none
  props : JsMap JsVal := []
deriving DecidableEq, Repr

/-- The value found in `fieldData.validation.validator`: a string, a
function, an `AsyncValidator` instance (both kept opaque, identified by a
number), or some other invalid value, which carries its own JS truthiness
(for example `0` and `false` are falsy, other objects truthy). -/
inductive ValidatorSpec where
  | vsStr (s : String)
  | vsFun (fid : Nat)
  | vsAsync (aid : Nat)
  | vsOther (truthy : Bool)
deriving DecidableEq, Repr

/-- JS truthiness of a `validator` member, as tested by the guard
`if (fieldData.validation.validator)` at source line 528: the empty string
is falsy, every other string is truthy, functions and `AsyncValidator`
objects are truthy, and other values carry their own truthiness. -/
def ValidatorSpec.isTruthy : ValidatorSpec → Bool
  | ValidatorSpec.vsStr s => s != ""
  | ValidatorSpec.vsFun _ => true
  | ValidatorSpec.vsAsync _ => true
  | ValidatorSpec.vsOther t => t

/-- The value of the local variable `validator` that `_applyFormData`
finally passes to `this._form.add`:
* `vnone`: no validation requested (`null`);
* `factory name`: the result of calling `qx.util.Validate[name]()`;
* `regexpV pat msg`: `qx.util.Validate.regExp(new RegExp(pat), msg)`;
* `rawString s` / `rawOther`: an invalid validator value that was reported
  with `this.error` but left in the variable;
* `vfunc` / `vasync`: a user-supplied function or `AsyncValidator`;
* `asyncProxy method msg`: the `AsyncValidator` built around the proxy. -/
inductive Validator where
  | vnone
  | factory (name : String)
  | regexpV (pat : String) (errMsg : Option String)
  | rawString (s : String)
  | rawOther
  | vfunc (fid : Nat)
  | vasync (aid : Nat)
  | asyncProxy (method : String) (invalidMessage : Option String)
deriving DecidableEq, Repr

/-- The `validation` member of a field description.  `proxy` and `method`
are `some _` exactly when the JS member is a string (the code tests them
with `qx.lang.Type.isString`). -/
structure Validation where
  required : Bool := false
  validator : Option ValidatorSpec := none
  errorMessage : Option String := none
  proxy : Option String := none
  method : Option String := none
  invalidMessage : Option String := none
deriving DecidableEq, Repr

/-- An entry of the `events` member: a string to be `eval`'ed (deprecated),
a function, or an invalid value. -/
inductive EventHandler where
  | ehStr (code : String)
  | ehFun (fid : Nat)
  | ehOther
deriving DecidableEq, Repr

/-- One member of the `formData` map (a field description).  The `type`
member is an arbitrary JS value (the code checks `typeof ... == "string"`
itself); members that the code tests against `undefined` are `Option`s. -/
structure FieldData where
  type : JsVal := JsVal.vUndef
  label : Option String := none
  value : JsVal := JsVal.vUndef
  validation : Option Validation := none
  width : Option Int := none
  placeholder : Option String := none
  toolTipText : Option String := none
  enabled : Option Bool := none
  properties : Option (JsMap JsVal) := none
  userdata : Option (JsMap JsVal) := none
  events : Option (List (String × EventHandler)) := none
deriving DecidableEq, Repr

/-- A registered form-element handler map (see
`registerFormElementHandlers`): the mandatory `initElement` and the
presence of the optional `addToFormController` and `postProcess` handlers.
`initElement` receives the down-cased field type, the field data, the key
and a fresh object id for the widget it may allocate; user handlers are
arbitrary functions, so the component is an arbitrary Lean function.
`hid` is the JS object identity of the handler map. -/
structure Handlers where
  hid : Nat
  initElement : String → FieldData → String → Nat → Option Element
  addToFormController : Bool := false
  postProcess : Bool := false

/-- Toolkit facts that `_applyFormData` consults but that live outside this
repository: which names are (truthy) members of `qx.util.Validate`, whether
`eval` of a cleaned proxy expression succeeds, whether its result is a
function, and whether `eval` of a string event handler succeeds. -/
structure Toolkit where
  validateHas : String → Bool
  proxyEvalOk : String → Bool
  proxyIsFunction : String → Bool
  eventEvalOk : String → Bool

/-- The `qx.ui.form.Form` created by `_applyFormData`: its object identity
and the `(element, label, validator)` triples passed to `form.add`, in
order. -/
structure FormObj where
  formId : Nat
  entries : List (Element × String × Validator) := []
deriving DecidableEq, Repr

/-- The `qx.data.controller.Object` created by `_applyFormData`: its object
identity and the identity of the model it was constructed around. -/
structure Controller where
  cid : Nat
  modelId : Nat
deriving DecidableEq, Repr

/-- The model created by `qx.data.marshal.Json.createModel(modelData)`: its
object identity and its property map. -/
structure Model where
  mid : Nat
  props : JsMap JsVal
deriving DecidableEq, Repr

/-- Observable calls that `_applyFormData` / `_handleOk` make into the
toolkit, into user-supplied handlers, or into the logger, in program
order. -/
inductive Action where
  | removedModelBindings (modelId : Nat)
  | disposedController (cid : Nat)
  | removedValidationBindings (formId : Nat)
  | disposedForm (formId : Nat)
  | containerEmptied
  | disposedModel (modelId : Nat)
  | createdModel (modelId : Nat)
  | createdForm (formId : Nat)
  | createdController (cid : Nat) (modelId : Nat)
  | onFormReady (formId : Nat)
  | calledFormReadyFunction (formId : Nat)
  | addedFormReadyListener
  | calledInitElement (fieldType : String) (key : String)
  | calledAddToFormController (fieldType : String) (key : String)
  | calledPostProcess (fieldType : String) (key : String)
  | errorLogged (msg : String)
  | warnLogged (msg : String)
  | addedListener (eventType : String) (elemId : Nat)
  | renderedForm (formId : Nat)
  | validated (formId : Nat)
  | calledFinalizeFunction (formId : Nat)
deriving DecidableEq, Repr

/-- The mutable state of a dialog object including the `MForm` mixin:
the `_formElements` / `_form` / `_formController` members, the `model`
property, the number of children of `_formContainer`, the function-valued
properties (kept opaque as object ids), a fresh-id counter for object
allocation, the recorded action trace, and the state that `_handleOk`
touches (`hidden`, fired events, the `callback` / `context` properties of
the dialog and the calls made to the callback). -/
structure MFormState where
  formElements : Option (JsMap Element) := none
  form : Option FormObj := none
  formController : Option Controller := none
  model : Option Model := none
  containerChildren : Nat := 0
  formReadyFunction : Option Nat := none
  finalizeFunction : Option Nat := none
  nextId : Nat := 0
  actions : List Action := []
  hidden : Bool := false
  firedEvents : List String := []
  callback : Option Nat := none
  context : Nat := 0
  callbackCalls : List (Nat × Nat × Option (JsMap JsVal)) := []

/-! ## Statics: the form-element handler registry -/

/-- JS `String.prototype.toLowerCase()` on the ASCII field-type names used
here (defined structurally on the character list so that it evaluates
inside the kernel). -/
def jsToLower (s : String) : String :=
  String.mk (s.data.map Char.toLower)

/-- `qxl.dialog.MForm.registerFormElementHandlers(fieldType, handlers)`:
down-cases the field type and stores the handler map under it. -/
def registerFormElementHandlers (reg : JsMap Handlers) (fieldType : String)
    (handlers : Handlers) : JsMap Handlers :=
  jsSet reg (jsToLower fieldType) handlers

/-- An internal form-element class as it appears in
`qxl.dialog.MForm._internalFormElements`: its static `register()` calls
`registerFormElementHandlers(regKey, handlers)` for its own field-type
name `regKey`. -/
structure InternalClass where
  regKey : String
  handlers : Handlers

/-- Modelled from the spec: the individual form-element classes construct
a toolkit widget for the field and return it.  Only the TextArea and
GroupHeader classes are present in the source excerpt; both return a
freshly constructed widget from `initElement`, and their widget
configuration lives in the toolkit.  The remaining classes are embedded
the same way: a fresh element is allocated and returned. -/
def internalInitElement : String → FieldData → String → Nat → Option Element :=
  fun _ _ _ eid => some { elemId := eid }

/-- Helper building an internal class whose `register()` registers
`handlers` (with identity `h`) under the field-type name `k`. -/
def internalClass (k : String) (h : Nat) : InternalClass :=
  { regKey := k
    handlers := { hid := h, initElement := internalInitElement } }

/-- `qxl.dialog.MForm._internalFormElements`, with its keys verbatim from
the source — including the misspelled key `"spiinner"` for the Spinner
class.  The `regKey` of each entry is the name that the class's
`register()` function passes to `registerFormElementHandlers`: for
TextArea and GroupHeader this is read off their sources (`"textarea"`,
`"groupheader"`); the other classes are not in the excerpt, so their
registration keys are modelled from the spec — each class registers its
own documented field-type name in lower case, so the Spinner class (listed
as field type `Spinner` in the `formData` documentation) registers
`"spinner"`. -/
def _internalFormElements : JsMap InternalClass :=
  [("checkbox", internalClass "checkbox" 1),
   ("combobox", internalClass "combobox" 2),
   ("datefield", internalClass "datefield" 3),
   ("groupheader", internalClass "groupheader" 4),
   ("label", internalClass "label" 5),
   ("list", internalClass "list" 6),
   ("passwordfield", internalClass "passwordfield" 7),
   ("radiogroup", internalClass "radiogroup" 8),
   ("selectbox", internalClass "selectbox" 9),
   ("spiinner", internalClass "spinner" 10),
   ("textarea", internalClass "textarea" 11),
   ("textfield", internalClass "textfield" 12)]

/-- The class-level static state: the live registry
`_registeredFormElements` and `_internalFormElements`, which `_init` nulls
out after the first registration pass. -/
structure StaticState where
  registered : JsMap Handlers := []
  internalTable : Option (JsMap InternalClass) := some _internalFormElements

/-- The registration part of `_init`: when `_internalFormElements` is still
non-null, walk its keys; for each key not already present in
`_registeredFormElements`, call the class's `register()` (which stores the
class's handlers under the class's own registration key); finally set
`_internalFormElements` to null so this runs only once per application
lifetime. -/
def initRegister (ss : StaticState) : StaticState :=
  match ss.internalTable with
  | none => ss
  | some tbl =>
    let reg := tbl.foldl
      (fun acc kv =>
        if (jsGet acc kv.1).isSome then acc
        else registerFormElementHandlers acc kv.2.regKey kv.2.handlers)
      ss.registered
    { registered := reg, internalTable := none }

/-! ## `_applyFormData` -/

/-- JS `label || ""`: the label when it is a truthy string, the empty
string when it is `undefined` (or the empty string itself). -/
def labelOrEmpty : Option String → String
  | some s => if s = "" then "" else s
  | none => ""

/-- Remove every occurrence of the two-character sequence `";\n"` from a
character list, non-overlapping and left to right. -/
def stripSemiNl : List Char → List Char
  | [] => []
  | ';' :: '\n' :: rest => stripSemiNl rest
  | c :: rest => c :: stripSemiNl rest

/-- `proxy.replace(/;\n/g, "")`: remove every occurrence of the two-character
sequence `";\n"` (non-overlapping, left to right). -/
def cleanProxy (p : String) : String :=
  String.mk (stripSemiNl p.data)

/-- The validation block of `_applyFormData` (source lines 521–581), as a
function from the field's `validation` member to the final value of the
local variable `validator` together with the log calls it makes.

* The whole sync block is guarded by the JS truthiness test
  `if (fieldData.validation.validator)` (line 528): a missing or falsy
  `validator` member (in particular the empty string) skips it and leaves
  the variable null.
* A truthy string validator is looked up on `qx.util.Validate` first;
  otherwise, when it starts with `"/"`, a regular-expression validator is
  built from `validator.substr(1, validator.length - 2)` (the string
  without its first and last characters) and `validation.errorMessage`;
  otherwise `this.error("Invalid string validator.")` is called and —
  since the code does not reset the variable — the string itself remains
  the validator.
* A truthy non-string, non-function, non-`AsyncValidator` value is
  reported with `this.error("Invalid validator.")` and likewise remains in
  the variable.
* When `validation.proxy` and `validation.method` are both strings, the
  cleaned proxy expression is `eval`'ed (a failure is caught and logged as
  `this.warn("Invalid proxy name")`); if the result is a function, a fresh
  `AsyncValidator` around it replaces any validator chosen above. -/
def resolveValidator (tk : Toolkit) : Option Validation → Validator × List Action
  | none => (Validator.vnone, [])
  | some v =>
    let sync : Validator × List Action :=
      match v.validator with
      | none => (Validator.vnone, [])
      | some spec =>
        if spec.isTruthy then
          match spec with
          | ValidatorSpec.vsStr s =>
            if tk.validateHas s then (Validator.factory s, [])
            else if s.take 1 = "/" then
              (Validator.regexpV ((s.drop 1).take (s.length - 2)) v.errorMessage, [])
            else (Validator.rawString s, [Action.errorLogged "Invalid string validator."])
          | ValidatorSpec.vsFun fid => (Validator.vfunc fid, [])
          | ValidatorSpec.vsAsync aid => (Validator.vasync aid, [])
          | ValidatorSpec.vsOther _ =>
            (Validator.rawOther, [Action.errorLogged "Invalid validator."])
        else (Validator.vnone, [])
    match v.proxy, v.method with
    | some p, some m =>
      let cleaned := cleanProxy p
      let logs := if tk.proxyEvalOk cleaned then sync.2
                  else sync.2 ++ [Action.warnLogged "Invalid proxy name"]
      if tk.proxyEvalOk cleaned && tk.proxyIsFunction cleaned then
        (Validator.asyncProxy m v.invalidMessage, logs)
      else (sync.1, logs)
    | _, _ => sync

/-- The element mutations that one loop iteration of `_applyFormData`
performs on the form element returned by `initElement`, in source order:
`setUserData("key", key)`, `setRequired(true)` when
`validation.required`, the `width` / `placeholder` / `toolTipText` /
`enabled` setters, the generic `set(properties)` call, and the generic
`userdata` settings. -/
def configureElement (fd : FieldData) (key : String) (e0 : Element) : Element :=
  let e := { e0 with userData := jsSet e0.userData "key" (JsVal.vStr key) }
  let e := match fd.validation with
    | some v => if v.required then { e with required := true } else e
    | none => e
  let e := match fd.width with
    | some w => { e with width := some w }
    | none => e
  let e := match fd.placeholder with
    | some p => { e with placeholder := some p }
    | none => e
  let e := match fd.toolTipText with
    | some t => { e with toolTipText := some t }
    | none => e
  let e := match fd.enabled with
    | some b => { e with enabled := some b }
    | none => e
  let e := match fd.properties with
    | some ps => { e with props := ps.foldl (fun acc kv => jsSet acc kv.1 kv.2) e.props }
    | none => e
  match fd.userdata with
  | some ud => { e with userData := ud.foldl (fun acc kv => jsSet acc kv.1 kv.2) e.userData }
  | none => e

/-- The log / listener calls made for the `events` member of a field: a
string handler is `eval`'ed inside a `try` (a failure, or a value that is
neither string nor function, is caught and logged with `this.warn`),
and the resulting function is attached with `addListener`. -/
def eventActions (tk : Toolkit) (key : String) (elemId : Nat) :
    Option (List (String × EventHandler)) → List Action
  | none => []
  | some evs => evs.map (fun ev =>
      match ev.2 with
      | EventHandler.ehStr code =>
        if tk.eventEvalOk code then Action.addedListener ev.1 elemId
        else Action.warnLogged
          ("Invalid '" ++ ev.1 ++ "' event handler for form element '" ++ key ++ "'.")
      | EventHandler.ehFun _ => Action.addedListener ev.1 elemId
      | EventHandler.ehOther => Action.warnLogged
          ("Invalid '" ++ ev.1 ++ "' event handler for form element '" ++ key ++ "'."))

/-- One iteration of the field loop of `_applyFormData` (source lines
485–667) for the entry `(key, fd)`.  Returns the updated state and, when
the iteration `throw`s, the error message (the state passed back is the
one at the moment of the throw).

* A non-string `type` member throws `"Missing type member {String}"`.
* A down-cased type absent from `_registeredFormElements` throws
  ``Field type ${fieldType} is unknown``.
* Otherwise `initElement` is called; when it returns no element the
  iteration `continue`s, else the element is configured
  (`configureElement`), `addToFormController` and `postProcess` are called
  when registered, the validator is resolved, event handlers are attached,
  the element is added to `this._form` with `label || ""` and the
  validator, and recorded in `this._formElements[key]`. -/
def applyFieldStep (registered : JsMap Handlers) (tk : Toolkit)
    (st : MFormState) (key : String) (fd : FieldData) : MFormState × Option String :=
  match fd.type with
  | JsVal.vStr s =>
    let fieldType := jsToLower s
    match jsGet registered fieldType with
    | none => (st, some ("Field type " ++ fieldType ++ " is unknown"))
    | some h =>
      match h.initElement fieldType fd key st.nextId with
      | none =>
        ({ st with nextId := st.nextId + 1
                   actions := st.actions ++ [Action.calledInitElement fieldType key] }, none)
      | some e0 =>
        let e := configureElement fd key e0
        let rv := resolveValidator tk fd.validation
        let acts :=
          [Action.calledInitElement fieldType key]
          ++ (if h.addToFormController then [Action.calledAddToFormController fieldType key] else [])
          ++ rv.2
          ++ (if h.postProcess then [Action.calledPostProcess fieldType key] else [])
          ++ eventActions tk key e0.elemId fd.events
        ({ st with
            nextId := st.nextId + 1
            actions := st.actions ++ acts
            form := st.form.map (fun f =>
              { f with entries := f.entries ++ [(e, labelOrEmpty fd.label, rv.1)] })
            formElements := some (jsSet (st.formElements.getD []) key e) }, none)
  | _ => (st, some "Missing type member \x7bString\x7d")

/-- The field loop of `_applyFormData`: iterate the entries of the
`formData` object in key order, stopping at the first thrown error. -/
def applyFields (registered : JsMap Handlers) (tk : Toolkit) :
    MFormState → List (String × FieldData) → MFormState × Option String
  | st, [] => (st, none)
  | st, kv :: rest =>
    let r := applyFieldStep registered tk st kv.1 kv.2
    match r.2 with
    | some e => (r.1, some e)
    | none => applyFields registered tk r.1 rest

/-- The `modelData` object built by `_applyFormData` (source lines
447–452): for each own key of `formData`,
`formData[key].value !== undefined ? formData[key].value : null`. -/
def buildModelData (fd : JsMap FieldData) : JsMap JsVal :=
  fd.foldl
    (fun acc kv =>
      jsSet acc kv.1 (if kv.2.value = JsVal.vUndef then JsVal.vNull else kv.2.value))
    []

/-- The teardown half of `_applyFormData` (source lines 419–439), run for
every application, null or not:
* the issue-#10068 kludge: `_init` runs when `_formElements` is still null,
  so `_formElements` becomes `{}` exactly when it was null before;
* the previous controller is disposed after the model's bindings are
  removed — inside a `try` whose `catch` swallows everything, so when the
  model is null the first call throws and nothing happens;
* the previous form's validation-manager bindings are removed and the form
  is disposed, likewise inside a `try`;
* `this._formContainer.removeAll()`.
Neither `_formController` nor `_form` is nulled. -/
def teardownPhase (st : MFormState) : MFormState :=
  let st := { st with formElements := some (st.formElements.getD []) }
  let st := { st with actions := st.actions ++
    (match st.formController, st.model with
     | some c, some m => [Action.removedModelBindings m.mid, Action.disposedController c.cid]
     | _, _ => []) }
  let st := { st with actions := st.actions ++
    (match st.form with
     | some f => [Action.removedValidationBindings f.formId, Action.disposedForm f.formId]
     | none => []) }
  { st with containerChildren := 0, actions := st.actions ++ [Action.containerEmptied] }

/-- The rebuild half of `_applyFormData` before the field loop (source
lines 443–483), run only for non-null `formData`:
* an existing model has its bindings removed and is disposed;
* `modelData` is built and a fresh model is marshalled and set;
* a fresh `qx.ui.form.Form` and a fresh
  `qx.data.controller.Object(this.getModel())` are created (the
  `module.objectid` blocks are toolkit-environment dependent and elided);
* `_onFormReady` is invoked twice (source lines 464 and 469);
* the `formReadyFunction` is called, or a one-shot listener is added. -/
def buildPhase (st : MFormState) (fd : JsMap FieldData) : MFormState :=
  let st := { st with actions := st.actions ++
    (match st.model with
     | some m => [Action.removedModelBindings m.mid, Action.disposedModel m.mid]
     | none => []) }
  let mId := st.nextId
  let st := { st with
    nextId := st.nextId + 1
    model := some { mid := mId, props := buildModelData fd }
    actions := st.actions ++ [Action.createdModel mId] }
  let fId := st.nextId
  let st := { st with
    nextId := st.nextId + 1
    form := some { formId := fId, entries := [] }
    actions := st.actions ++ [Action.createdForm fId] }
  let cId := st.nextId
  let st := { st with
    nextId := st.nextId + 1
    formController := some { cid := cId, modelId := mId }
    actions := st.actions ++ [Action.createdController cId mId] }
  { st with actions := st.actions
    ++ [Action.onFormReady fId, Action.onFormReady fId]
    ++ (match st.formReadyFunction with
        | some _ => [Action.calledFormReadyFunction fId]
        | none => [Action.addedFormReadyListener]) }

/-- `_applyFormData(formData, old)` (source lines 418–700): teardown, the
early return for null `formData`, the rebuild (`buildPhase`), the field
loop (`applyFields`, out of which a throw propagates), and finally the
rendering of the form into the container, the validation-manager
`validate()` call and the `finalizeFunction` call when one is set.  The
`registered` map is the class-level `_registeredFormElements` table; `tk`
holds the toolkit facts.  Returns the mutated state together with the
error message when the call throws. -/
def _applyFormData (registered : JsMap Handlers) (tk : Toolkit)
    (st : MFormState) (formData : Option (JsMap FieldData)) : MFormState × Option String :=
  let st := teardownPhase st
  match formData with
  | none => (st, none)
  | some fd =>
    let st := buildPhase st fd
    -- the id of the form created in `buildPhase` (allocation order there:
    -- model, form, controller)
    let fId := st.nextId - 2
    let r := applyFields registered tk st fd
    match r.2 with
    | some e => (r.1, some e)
    | none =>
      ({ r.1 with
          containerChildren := 1
          actions := r.1.actions
            ++ [Action.renderedForm fId, Action.validated fId]
            ++ (match r.1.finalizeFunction with
                | some _ => [Action.calledFinalizeFunction fId]
                | none => []) }, none)

/-! ## `_handleOk` -/

/-- `qx.util.Serializer.toNativeObject` applied to a model marshalled from
`modelData`: its property map as a native object. -/
def toNativeObject (m : Model) : JsMap JsVal :=
  m.props

/-- `_handleOk()` (source lines 739–749): hide the dialog, fire the `"ok"`
event, call the callback (when set) in the stored context with the
serialized model, and reset the `callback` property to its initial null
value. -/
def _handleOk (st : MFormState) : MFormState :=
  let st := { st with hidden := true, firedEvents := st.firedEvents ++ ["ok"] }
  let st := match st.callback with
    | some cb =>
      { st with callbackCalls :=
          st.callbackCalls ++ [(cb, st.context, st.model.map toNativeObject)] }
    | none => st
  { st with callback := none }

/-! ## The async proxy validator -/

/-- The state of one `AsyncValidator` built around a proxy: the
`__asyncInProgress` flag on the validator object, the last validity
delivered via `setValid`, and the number of proxy invocations started. -/
structure AsyncVState where
  inProgress : Bool := false
  lastValid : Option Bool := none
  proxyCalls : Nat := 0
deriving DecidableEq, Repr

/-- The body of `validationFunc` (source lines 569–577): when
`__asyncInProgress` is not set, set it and invoke the proxy; otherwise do
nothing. -/
def validationFunc (st : AsyncVState) : AsyncVState :=
  if st.inProgress then st
  else { st with inProgress := true, proxyCalls := st.proxyCalls + 1 }

/-- The callback the proxy receives (source lines 572–575): deliver the
validity via `setValid` and clear `__asyncInProgress`. -/
def proxyCallback (st : AsyncVState) (valid : Bool) : AsyncVState :=
  { st with lastValid := some valid, inProgress := false }

/-- The events that can happen to the async validator: the validation
manager calls the validation function, or the proxy's callback delivers a
result. -/
inductive AsyncEvent where
  | validate
  | deliver (valid : Bool)
deriving DecidableEq, Repr

/-- The transition system of the async proxy validator. -/
def asyncStep (st : AsyncVState) : AsyncEvent → AsyncVState
  | AsyncEvent.validate => validationFunc st
  | AsyncEvent.deliver b => proxyCallback st b

/-! ## Concrete fixtures used by the witnesses and counterexamples -/

/-- A toolkit valuation on which every external lookup fails: no
`qx.util.Validate` member, no resolvable proxy, no `eval`-able event
handler. -/
def tkNone : Toolkit :=
  { validateHas := fun _ => false
    proxyEvalOk := fun _ => false
    proxyIsFunction := fun _ => false
    eventEvalOk := fun _ => false }

/-- A user-registered handler map (object identity 100) whose
`initElement` returns a fresh element. -/
def testHandlers : Handlers :=
  { hid := 100, initElement := fun _ _ _ eid => some { elemId := eid } }

/-- A registry with `testHandlers` registered for field type
`"textfield"`. -/
def testRegistered : JsMap Handlers :=
  [("textfield", testHandlers)]

/-- A dialog state before the first `_applyFormData`. -/
def freshState : MFormState := {}

/-- A first `formData` map with a single TextField field `"a"`. -/
def fdA : JsMap FieldData :=
  [("a", { type := JsVal.vStr "TextField", value := JsVal.vStr "x", label := some "A" })]

/-- A second `formData` map with a single TextField field `"b"`,
sharing no key with `fdA`. -/
def fdB : JsMap FieldData :=
  [("b", { type := JsVal.vStr "TextField" })]

/-- The state after applying `fdA` to a fresh dialog. -/
def stAfterA : MFormState :=
  (_applyFormData testRegistered tkNone freshState (some fdA)).1

/-- The state after re-applying `fdB` on top of `stAfterA`. -/
def stAfterB : MFormState :=
  (_applyFormData testRegistered tkNone stAfterA (some fdB)).1

/-- A toolkit valuation on which every external lookup succeeds. -/
def tkAll : Toolkit :=
  { validateHas := fun _ => true
    proxyEvalOk := fun _ => true
    proxyIsFunction := fun _ => true
    eventEvalOk := fun _ => true }

/-- A dialog state with an empty form already created, as the field loop
sees it. -/
def builtFormState : MFormState :=
  { freshState with form := some { formId := 0, entries := [] }, formElements := some [] }

/-- The registry after the one-time `_init` registration pass starting
from an empty user registry. -/
def stdRegistered : JsMap Handlers :=
  (initRegister {}).registered

/-- A `formData` map containing one field of type `"Spinner"`. -/
def spinnerFormData : JsMap FieldData :=
  [("quantity", { type := JsVal.vStr "Spinner", value := JsVal.vInt 1 })]

/-! ## Lemmas about the JS-object embedding -/

@[simp] theorem jsGet_nil {α : Type} (k : String) : jsGet ([] : JsMap α) k = none := rfl

@[simp] theorem jsGet_cons {α : Type} (p : String × α) (rest : JsMap α) (k : String) :
    jsGet (p :: rest) k = if p.1 = k then some p.2 else jsGet rest k := rfl

@[simp] theorem jsSet_nil {α : Type} (k : String) (v : α) :
    jsSet ([] : JsMap α) k v = [(k, v)] := rfl

@[simp] theorem jsSet_cons {α : Type} (p : String × α) (rest : JsMap α) (k : String) (v : α) :
    jsSet (p :: rest) k v = if p.1 = k then (k, v) :: rest else p :: jsSet rest k v := rfl

theorem jsGet_jsSet_self {α : Type} (m : JsMap α) (k : String) (v : α) :
    jsGet (jsSet m k v) k = some v := by
  induction m with
  | nil => simp
  | cons p rest ih =>
    by_cases h : p.1 = k <;> simp [h, ih]

theorem jsGet_jsSet_of_ne {α : Type} (m : JsMap α) (k k' : String) (v : α) (h : k' ≠ k) :
    jsGet (jsSet m k v) k' = jsGet m k' := by
  induction m with
  | nil => simp [jsGet, Ne.symm h]
  | cons p rest ih =>
    by_cases hp : p.1 = k
    · subst hp; simp [Ne.symm h]
    · by_cases hp' : p.1 = k' <;> simp [hp, hp', ih, h]

theorem isSome_jsGet_jsSet {α : Type} (m : JsMap α) (k k' : String) (v : α) :
    (jsGet (jsSet m k v) k').isSome = true ↔ k' = k ∨ (jsGet m k').isSome = true := by
  by_cases h : k' = k
  · subst h; simp [jsGet_jsSet_self]
  · rw [jsGet_jsSet_of_ne m k k' v h]
    simp [h]

theorem jsGet_eq_none_of_not_mem_keys {α : Type} (m : JsMap α) (k : String)
    (h : k ∉ jsKeys m) : jsGet m k = none := by
  induction m with
  | nil => rfl
  | cons p rest ih =>
    simp only [jsKeys, List.map_cons, List.mem_cons] at h
    push_neg at h
    simp [Ne.symm h.1, ih (by simpa [jsKeys] using h.2)]

theorem mem_keys_of_jsGet_isSome {α : Type} (m : JsMap α) (k : String)
    (h : (jsGet m k).isSome = true) : k ∈ jsKeys m := by
  by_contra hk
  rw [jsGet_eq_none_of_not_mem_keys m k hk] at h
  simp at h

theorem jsGet_isSome_of_mem_keys {α : Type} (m : JsMap α) (k : String)
    (h : k ∈ jsKeys m) : (jsGet m k).isSome = true := by
  induction m with
  | nil => simp [jsKeys] at h
  | cons p rest ih =>
    by_cases hp : p.1 = k
    · simp [hp]
    · simp only [jsKeys, List.map_cons, List.mem_cons] at h
      rcases h with h | h
      · exact absurd h.symm hp
      · simp [hp, ih (by simpa [jsKeys] using h)]

theorem jsGet_append {α : Type} (m1 m2 : JsMap α) (k : String) :
    jsGet (m1 ++ m2) k = match jsGet m1 k with
      | some v => some v
      | none => jsGet m2 k := by
  induction m1 with
  | nil => simp
  | cons p rest ih =>
    by_cases hp : p.1 = k <;> simp [hp, ih]

/-- When the key is absent, `jsSet` appends the new entry at the end. -/
theorem jsSet_append_of_not_mem {α : Type} (m : JsMap α) (k : String) (v : α)
    (h : k ∉ jsKeys m) : jsSet m k v = m ++ [(k, v)] := by
  induction m with
  | nil => rfl
  | cons p rest ih =>
    simp only [jsKeys, List.map_cons, List.mem_cons] at h
    push_neg at h
    simp [Ne.symm h.1, ih (by simpa [jsKeys] using h.2)]

/-! ## Structural lemmas about the field loop -/

/-- What one loop iteration can do to the instance state: the model, the
controller and the container are untouched, actions are only appended, the
form gains at most one entry, and `_formElements` only ever gains the
iteration's own key. -/
theorem applyFieldStep_spec (R : JsMap Handlers) (tk : Toolkit) (st : MFormState)
    (k : String) (fd : FieldData) :
    (applyFieldStep R tk st k fd).1.model = st.model ∧
    (applyFieldStep R tk st k fd).1.formController = st.formController ∧
    (applyFieldStep R tk st k fd).1.containerChildren = st.containerChildren ∧
    (∃ t, (applyFieldStep R tk st k fd).1.actions = st.actions ++ t) ∧
    (∀ f : FormObj, st.form = some f →
      ∃ ents, (applyFieldStep R tk st k fd).1.form =
          some { formId := f.formId, entries := f.entries ++ ents } ∧ ents.length ≤ 1) ∧
    (∀ k', (jsGet (st.formElements.getD []) k').isSome = true →
      (jsGet ((applyFieldStep R tk st k fd).1.formElements.getD []) k').isSome = true) ∧
    (∀ k', (jsGet ((applyFieldStep R tk st k fd).1.formElements.getD []) k').isSome = true →
      (jsGet (st.formElements.getD []) k').isSome = true ∨ k' = k) := by
  have hid : ∀ err : Option String, applyFieldStep R tk st k fd = (st, err) →
      (applyFieldStep R tk st k fd).1.model = st.model ∧
      (applyFieldStep R tk st k fd).1.formController = st.formController ∧
      (applyFieldStep R tk st k fd).1.containerChildren = st.containerChildren ∧
      (∃ t, (applyFieldStep R tk st k fd).1.actions = st.actions ++ t) ∧
      (∀ f : FormObj, st.form = some f →
        ∃ ents, (applyFieldStep R tk st k fd).1.form =
            some { formId := f.formId, entries := f.entries ++ ents } ∧ ents.length ≤ 1) ∧
      (∀ k', (jsGet (st.formElements.getD []) k').isSome = true →
        (jsGet ((applyFieldStep R tk st k fd).1.formElements.getD []) k').isSome = true) ∧
      (∀ k', (jsGet ((applyFieldStep R tk st k fd).1.formElements.getD []) k').isSome = true →
        (jsGet (st.formElements.getD []) k').isSome = true ∨ k' = k) := by
    intro err hstep
    rw [hstep]
    exact ⟨rfl, rfl, rfl, ⟨[], by simp⟩,
      fun f hf => ⟨[], by simp [hf], by simp⟩,
      fun k' h => h, fun k' h => Or.inl h⟩
  cases htype : fd.type with
  | vStr s =>
    cases hg : jsGet R (jsToLower s) with
    | none =>
      exact hid (some ("Field type " ++ jsToLower s ++ " is unknown"))
        (by simp [applyFieldStep, htype, hg])
    | some h =>
      cases hie : h.initElement (jsToLower s) fd k st.nextId with
      | none =>
        have hstep : applyFieldStep R tk st k fd =
            ({ st with nextId := st.nextId + 1
                       actions := st.actions ++ [Action.calledInitElement (jsToLower s) k] },
             none) := by
          simp [applyFieldStep, htype, hg, hie]
        rw [hstep]
        exact ⟨rfl, rfl, rfl, ⟨_, rfl⟩,
          fun f hf => ⟨[], by simp [hf], by simp⟩,
          fun k' h => h, fun k' h => Or.inl h⟩
      | some e0 =>
        have hstep : applyFieldStep R tk st k fd =
            ({ st with
                nextId := st.nextId + 1
                actions := st.actions ++
                  ([Action.calledInitElement (jsToLower s) k]
                   ++ (if h.addToFormController then
                        [Action.calledAddToFormController (jsToLower s) k] else [])
                   ++ (resolveValidator tk fd.validation).2
                   ++ (if h.postProcess then [Action.calledPostProcess (jsToLower s) k] else [])
                   ++ eventActions tk k e0.elemId fd.events)
                form := st.form.map (fun f =>
                  { f with entries := f.entries ++
                      [(configureElement fd k e0, labelOrEmpty fd.label,
                        (resolveValidator tk fd.validation).1)] })
                formElements := some (jsSet (st.formElements.getD []) k
                  (configureElement fd k e0)) }, none) := by
          simp [applyFieldStep, htype, hg, hie]
        rw [hstep]
        refine ⟨rfl, rfl, rfl, ⟨_, rfl⟩, ?_, ?_, ?_⟩
        · intro f hf
          exact ⟨[(configureElement fd k e0, labelOrEmpty fd.label,
                    (resolveValidator tk fd.validation).1)], by simp [hf], by simp⟩
        · intro k' hk'
          simpa using (isSome_jsGet_jsSet (st.formElements.getD []) k k'
            (configureElement fd k e0)).2 (Or.inr hk')
        · intro k' hk'
          rcases (isSome_jsGet_jsSet (st.formElements.getD []) k k'
              (configureElement fd k e0)).1 (by simpa using hk') with h1 | h2
          · exact Or.inr h1
          · exact Or.inl h2
  | vUndef =>
    exact hid (some "Missing type member \x7bString\x7d") (by simp [applyFieldStep, htype])
  | vNull =>
    exact hid (some "Missing type member \x7bString\x7d") (by simp [applyFieldStep, htype])
  | vBool b =>
    exact hid (some "Missing type member \x7bString\x7d") (by simp [applyFieldStep, htype])
  | vInt n =>
    exact hid (some "Missing type member \x7bString\x7d") (by simp [applyFieldStep, htype])

/-- What the whole field loop can do to the instance state: the model, the
controller and the container are untouched, actions are only appended, the
form gains at most one entry per processed field, `_formElements` never
loses a key, and every key it gains comes from the processed entries. -/
theorem applyFields_spec (R : JsMap Handlers) (tk : Toolkit) :
    ∀ (entries : List (String × FieldData)) (st : MFormState),
    (applyFields R tk st entries).1.model = st.model ∧
    (applyFields R tk st entries).1.formController = st.formController ∧
    (applyFields R tk st entries).1.containerChildren = st.containerChildren ∧
    (∃ t, (applyFields R tk st entries).1.actions = st.actions ++ t) ∧
    (∀ f : FormObj, st.form = some f →
      ∃ ents, (applyFields R tk st entries).1.form =
          some { formId := f.formId, entries := f.entries ++ ents } ∧
        ents.length ≤ entries.length) ∧
    (∀ k', (jsGet (st.formElements.getD []) k').isSome = true →
      (jsGet ((applyFields R tk st entries).1.formElements.getD []) k').isSome = true) ∧
    (∀ k', (jsGet ((applyFields R tk st entries).1.formElements.getD []) k').isSome = true →
      (jsGet (st.formElements.getD []) k').isSome = true ∨ k' ∈ entries.map Prod.fst) := by
  intro entries
  induction entries with
  | nil =>
    intro st
    exact ⟨rfl, rfl, rfl, ⟨[], by simp [applyFields]⟩,
      fun f hf => ⟨[], by simp [applyFields, hf], by simp⟩,
      fun k' h => by simpa [applyFields] using h,
      fun k' h => Or.inl (by simpa [applyFields] using h)⟩
  | cons kv rest ih =>
    intro st
    obtain ⟨hm, hc, hcc, ⟨t1, ht1⟩, hform, hmono, hfrom⟩ :=
      applyFieldStep_spec R tk st kv.1 kv.2
    cases herr : (applyFieldStep R tk st kv.1 kv.2).2 with
    | some e =>
      have hloop : applyFields R tk st (kv :: rest) = ((applyFieldStep R tk st kv.1 kv.2).1, some e) := by
        simp [applyFields, herr]
      rw [hloop]
      refine ⟨hm, hc, hcc, ⟨t1, ht1⟩, ?_, hmono, ?_⟩
      · intro f hf
        obtain ⟨ents, hents, hlen⟩ := hform f hf
        exact ⟨ents, hents, le_trans hlen (by simp)⟩
      · intro k' h
        rcases hfrom k' h with h1 | h2
        · exact Or.inl h1
        · exact Or.inr (by simp [h2])
    | none =>
      have hloop : applyFields R tk st (kv :: rest) =
          applyFields R tk (applyFieldStep R tk st kv.1 kv.2).1 rest := by
        simp [applyFields, herr]
      rw [hloop]
      obtain ⟨ihm, ihc, ihcc, ⟨t2, ht2⟩, ihform, ihmono, ihfrom⟩ :=
        ih (applyFieldStep R tk st kv.1 kv.2).1
      refine ⟨ihm.trans hm, ihc.trans hc, ihcc.trans hcc,
        ⟨t1 ++ t2, by rw [ht2, ht1, List.append_assoc]⟩, ?_, ?_, ?_⟩
      · intro f hf
        obtain ⟨ents1, hents1, hlen1⟩ := hform f hf
        obtain ⟨ents2, hents2, hlen2⟩ := ihform _ hents1
        refine ⟨ents1 ++ ents2, by simpa [List.append_assoc] using hents2, ?_⟩
        simp only [List.length_append, List.length_cons]
        omega
      · intro k' h
        exact ihmono k' (hmono k' h)
      · intro k' h
        rcases ihfrom k' h with h1 | h2
        · rcases hfrom k' h1 with h3 | h4
          · exact Or.inl h3
          · exact Or.inr (by simp [h4])
        · exact Or.inr (by simp [h2])

/-- The state just before the field loop, in terms of the input state:
the fresh model (holding `modelData`), the fresh empty form and the fresh
controller around the model, allocated in this order; `_formElements` is
carried over (only defaulted to `{}` when it was still null). -/
theorem buildPhase_fields (st : MFormState) (fd : JsMap FieldData) :
    (buildPhase (teardownPhase st) fd).model
        = some { mid := st.nextId, props := buildModelData fd } ∧
    (buildPhase (teardownPhase st) fd).form = some { formId := st.nextId + 1, entries := [] } ∧
    (buildPhase (teardownPhase st) fd).formController
        = some { cid := st.nextId + 2, modelId := st.nextId } ∧
    (buildPhase (teardownPhase st) fd).formElements = some (st.formElements.getD []) ∧
    (buildPhase (teardownPhase st) fd).containerChildren = 0 := by
  exact ⟨rfl, rfl, rfl, rfl, rfl⟩

/-- Shape of `_applyFormData` on non-null `formData`, independent of any
hypothesis on the previous state: the model property holds a fresh model
marshalled from `modelData`, the controller is fresh and wraps that model,
the form is fresh with at most one entry per field, `_formElements` keeps
every key it had, and any key it gains comes from the new `formData`. -/
theorem applyFormData_some_spec (R : JsMap Handlers) (tk : Toolkit)
    (st : MFormState) (fd : JsMap FieldData) :
    (_applyFormData R tk st (some fd)).1.model
        = some { mid := st.nextId, props := buildModelData fd } ∧
    (_applyFormData R tk st (some fd)).1.formController
        = some { cid := st.nextId + 2, modelId := st.nextId } ∧
    (∃ ents, (_applyFormData R tk st (some fd)).1.form
        = some { formId := st.nextId + 1, entries := ents } ∧ ents.length ≤ fd.length) ∧
    (∀ k, (jsGet (st.formElements.getD []) k).isSome = true →
      (jsGet ((_applyFormData R tk st (some fd)).1.formElements.getD []) k).isSome = true) ∧
    (∀ k, (jsGet ((_applyFormData R tk st (some fd)).1.formElements.getD []) k).isSome = true →
      (jsGet (st.formElements.getD []) k).isSome = true ∨ k ∈ jsKeys fd) := by
  obtain ⟨hbm, hbf, hbc, hbe, -⟩ := buildPhase_fields st fd
  obtain ⟨hm, hc, -, -, hform, hmono, hfrom⟩ :=
    applyFields_spec R tk fd (buildPhase (teardownPhase st) fd)
  have hpre : ∀ k, (jsGet (st.formElements.getD []) k).isSome = true →
      (jsGet ((buildPhase (teardownPhase st) fd).formElements.getD []) k).isSome = true := by
    intro k hk
    rw [hbe]
    simpa using hk
  have hpre' : ∀ k,
      (jsGet ((buildPhase (teardownPhase st) fd).formElements.getD []) k).isSome = true →
      (jsGet (st.formElements.getD []) k).isSome = true := by
    intro k hk
    rw [hbe] at hk
    simpa using hk
  cases h2 : (applyFields R tk (buildPhase (teardownPhase st) fd) fd).2 with
  | some e =>
    have heq : _applyFormData R tk st (some fd)
        = ((applyFields R tk (buildPhase (teardownPhase st) fd) fd).1, some e) := by
      simp [_applyFormData, h2]
    rw [heq]
    refine ⟨hm.trans hbm, hc.trans hbc, ?_, ?_, ?_⟩
    · obtain ⟨ents, hents, hlen⟩ := hform _ hbf
      exact ⟨ents, by simpa using hents, hlen⟩
    · intro k hk
      exact hmono k (hpre k hk)
    · intro k hk
      rcases hfrom k hk with h1 | h2
      · exact Or.inl (hpre' _ h1)
      · exact Or.inr (by simpa [jsKeys] using h2)
  | none =>
    have heq : (_applyFormData R tk st (some fd)).1
        = { (applyFields R tk (buildPhase (teardownPhase st) fd) fd).1 with
            containerChildren := 1
            actions := (applyFields R tk (buildPhase (teardownPhase st) fd) fd).1.actions
              ++ [Action.renderedForm ((buildPhase (teardownPhase st) fd).nextId - 2),
                  Action.validated ((buildPhase (teardownPhase st) fd).nextId - 2)]
              ++ (match (applyFields R tk (buildPhase (teardownPhase st) fd) fd).1.finalizeFunction with
                  | some _ => [Action.calledFinalizeFunction
                      ((buildPhase (teardownPhase st) fd).nextId - 2)]
                  | none => []) } := by
      simp [_applyFormData, h2]
    rw [heq]
    refine ⟨hm.trans hbm, hc.trans hbc, ?_, ?_, ?_⟩
    · obtain ⟨ents, hents, hlen⟩ := hform _ hbf
      exact ⟨ents, by simpa using hents, hlen⟩
    · intro k hk
      exact hmono k (hpre k hk)
    · intro k hk
      rcases hfrom k (by simpa using hk) with h1 | h2
      · exact Or.inl (hpre' _ h1)
      · exact Or.inr (by simpa [jsKeys] using h2)

/-- Folding `jsSet` over entries with fresh, pairwise distinct keys appends
the mapped entries in order. -/
theorem foldl_jsSet_eq_append {α β : Type} (g : β → α) :
    ∀ (l : List (String × β)) (acc : JsMap α),
      (∀ p ∈ l, jsGet acc p.1 = none) → (l.map Prod.fst).Nodup →
      l.foldl (fun a kv => jsSet a kv.1 (g kv.2)) acc
        = acc ++ l.map (fun kv => (kv.1, g kv.2)) := by
  intro l
  induction l with
  | nil => intro acc _ _; simp
  | cons p rest ih =>
    intro acc hfresh hnd
    have hp : jsGet acc p.1 = none := hfresh p (by simp)
    have hset : jsSet acc p.1 (g p.2) = acc ++ [(p.1, g p.2)] := by
      refine jsSet_append_of_not_mem acc p.1 (g p.2) ?_
      intro hmem
      have hs := jsGet_isSome_of_mem_keys acc p.1 hmem
      rw [hp] at hs
      simp at hs
    simp only [List.map_cons, List.nodup_cons] at hnd
    have hrest : ∀ q ∈ rest, jsGet (acc ++ [(p.1, g p.2)]) q.1 = none := by
      intro q hq
      rw [jsGet_append]
      have h1 : jsGet acc q.1 = none := hfresh q (by simp [hq])
      have h2 : q.1 ≠ p.1 := by
        intro hqp
        exact hnd.1 (hqp ▸ List.mem_map_of_mem Prod.fst hq)
      rw [h1]
      simp [jsGet, Ne.symm h2]
    have := ih (acc ++ [(p.1, g p.2)]) hrest hnd.2
    simp only [List.foldl_cons, hset, this, List.map_cons]
    simp [List.append_assoc]

/-- `jsGet` on a value-mapped association list. -/
theorem jsGet_map_value {α β : Type} (g : α → β) (l : JsMap α) (k : String) :
    jsGet (l.map (fun kv => (kv.1, g kv.2))) k = (jsGet l k).map g := by
  induction l with
  | nil => simp
  | cons p rest ih =>
    by_cases hp : p.1 = k <;> simp [hp, ih]

/-- For a `formData` object (whose keys, being JS object properties, are
pairwise distinct), `modelData` maps each entry to its `value` member when
that is defined and to `null` otherwise, keeping the key order. -/
theorem buildModelData_eq (fd : JsMap FieldData) (hnd : (jsKeys fd).Nodup) :
    buildModelData fd
      = fd.map (fun kv =>
          (kv.1, if kv.2.value = JsVal.vUndef then JsVal.vNull else kv.2.value)) := by
  have := foldl_jsSet_eq_append
    (fun v : FieldData => if v.value = JsVal.vUndef then JsVal.vNull else v.value)
    fd [] (by intro p _; rfl) hnd
  simpa [buildModelData] using this

/-- The action trace of `_applyFormData` on non-null `formData` extends
the trace present just before the field loop. -/
theorem applyFormData_actions_extend (R : JsMap Handlers) (tk : Toolkit)
    (st : MFormState) (fd : JsMap FieldData) :
    ∃ t, (_applyFormData R tk st (some fd)).1.actions
      = (buildPhase (teardownPhase st) fd).actions ++ t := by
  obtain ⟨-, -, -, ⟨t2, ht2⟩, -, -, -⟩ :=
    applyFields_spec R tk fd (buildPhase (teardownPhase st) fd)
  cases h2 : (applyFields R tk (buildPhase (teardownPhase st) fd) fd).2 with
  | some e =>
    refine ⟨t2, ?_⟩
    have heq : _applyFormData R tk st (some fd)
        = ((applyFields R tk (buildPhase (teardownPhase st) fd) fd).1, some e) := by
      simp [_applyFormData, h2]
    rw [heq]
    exact ht2
  | none =>
    refine ⟨t2 ++ ([Action.renderedForm ((buildPhase (teardownPhase st) fd).nextId - 2),
        Action.validated ((buildPhase (teardownPhase st) fd).nextId - 2)]
      ++ (match (applyFields R tk (buildPhase (teardownPhase st) fd) fd).1.finalizeFunction with
          | some _ => [Action.calledFinalizeFunction
              ((buildPhase (teardownPhase st) fd).nextId - 2)]
          | none => [])), ?_⟩
    simp only [_applyFormData, h2]
    rw [ht2]
    simp [List.append_assoc]

/-- Under the hypotheses of a previous successful application (controller,
form, model and `_formElements` all present), re-applying a non-null
`formData` first performs the full teardown in source order: the old
model's bindings are removed and the old controller disposed, the old
form's validation bindings are removed and the form disposed, the
container is emptied, and the old model's bindings are removed again
before the model itself is disposed. -/
theorem applyFormData_teardown_actions (R : JsMap Handlers) (tk : Toolkit)
    (st : MFormState) (fd : JsMap FieldData) (c : Controller) (f : FormObj) (m : Model)
    (hc : st.formController = some c) (hf : st.form = some f) (hm : st.model = some m) :
    ∃ t, (_applyFormData R tk st (some fd)).1.actions = st.actions ++
      [Action.removedModelBindings m.mid, Action.disposedController c.cid,
       Action.removedValidationBindings f.formId, Action.disposedForm f.formId,
       Action.containerEmptied,
       Action.removedModelBindings m.mid, Action.disposedModel m.mid] ++ t := by
  obtain ⟨t1, ht1⟩ := applyFormData_actions_extend R tk st fd
  have hpre : (buildPhase (teardownPhase st) fd).actions = st.actions ++
      [Action.removedModelBindings m.mid, Action.disposedController c.cid,
       Action.removedValidationBindings f.formId, Action.disposedForm f.formId,
       Action.containerEmptied,
       Action.removedModelBindings m.mid, Action.disposedModel m.mid] ++
      ([Action.createdModel st.nextId, Action.createdForm (st.nextId + 1),
        Action.createdController (st.nextId + 2) st.nextId,
        Action.onFormReady (st.nextId + 1), Action.onFormReady (st.nextId + 1)] ++
       (match st.formReadyFunction with
        | some _ => [Action.calledFormReadyFunction (st.nextId + 1)]
        | none => [Action.addedFormReadyListener])) := by
    simp [teardownPhase, buildPhase, hc, hf, hm]
  refine ⟨([Action.createdModel st.nextId, Action.createdForm (st.nextId + 1),
        Action.createdController (st.nextId + 2) st.nextId,
        Action.onFormReady (st.nextId + 1), Action.onFormReady (st.nextId + 1)] ++
       (match st.formReadyFunction with
        | some _ => [Action.calledFormReadyFunction (st.nextId + 1)]
        | none => [Action.addedFormReadyListener])) ++ t1, ?_⟩
  rw [ht1, hpre]
  simp [List.append_assoc]

/-- When the field has no `userdata` member, the configured element's user
data is exactly the handler-returned element's user data extended with the
`"key"` entry. -/
theorem configureElement_userData (fd : FieldData) (key : String) (e0 : Element)
    (hud : fd.userdata = none) :
    (configureElement fd key e0).userData = jsSet e0.userData "key" (JsVal.vStr key) := by
  obtain ⟨t, lbl, v, vdn, w, ph, tt, en, pr, ud, ev⟩ := fd
  simp only at hud
  subst hud
  cases vdn <;> cases w <;> cases ph <;> cases tt <;> cases en <;> cases pr <;>
    simp [configureElement, apply_ite]

/-! ## Claims -/

/-- C3: for every invocation, `_handleOk` hides the dialog and fires the
`"ok"` event; when a callback is set it is called in the stored context
with the native-object serialization of the current model as its single
argument, and the callback property ends up reset; when no callback is
set, no call is made and nothing else changes. -/
theorem handleOk_spec (st : MFormState) :
    (_handleOk st).hidden = true ∧
    (_handleOk st).firedEvents = st.firedEvents ++ ["ok"] ∧
    (_handleOk st).callback = none ∧
    (_handleOk st).callbackCalls = st.callbackCalls ++
      (match st.callback with
       | some cb => [(cb, st.context, st.model.map toNativeObject)]
       | none => []) ∧
    (_handleOk st).model = st.model ∧
    (_handleOk st).context = st.context ∧
    (_handleOk st).formElements = st.formElements := by
  cases hcb : st.callback <;> simp [_handleOk, hcb]

/-- C5: a field whose `type` member is not a string makes the loop
iteration throw `"Missing type member {String}"`, and a string type whose
down-cased form is not registered makes it throw the unknown-field-type
error — in both cases with the state untouched, so before any element for
that entry is created. -/
theorem applyFieldStep_type_errors (R : JsMap Handlers) (tk : Toolkit)
    (st : MFormState) (key : String) (fd : FieldData) :
    ((∀ s, fd.type ≠ JsVal.vStr s) →
      applyFieldStep R tk st key fd = (st, some "Missing type member \x7bString\x7d")) ∧
    (∀ s, fd.type = JsVal.vStr s → jsGet R (jsToLower s) = none →
      applyFieldStep R tk st key fd
        = (st, some ("Field type " ++ jsToLower s ++ " is unknown"))) := by
  constructor
  · intro hns
    cases htype : fd.type with
    | vStr s => exact absurd htype (hns s)
    | vUndef => simp [applyFieldStep, htype]
    | vNull => simp [applyFieldStep, htype]
    | vBool b => simp [applyFieldStep, htype]
    | vInt n => simp [applyFieldStep, htype]
  · intro s htype hg
    simp [applyFieldStep, htype, hg]

/-- Witness for C5 at concrete inputs: a numeric `type` member and an
unregistered string type. -/
theorem applyFieldStep_type_errors_witness :
    applyFieldStep testRegistered tkNone freshState "a" { type := JsVal.vInt 1 }
      = (freshState, some "Missing type member \x7bString\x7d") ∧
    applyFieldStep testRegistered tkNone freshState "a" { type := JsVal.vStr "Unknown" }
      = (freshState, some ("Field type " ++ jsToLower "Unknown" ++ " is unknown")) := by
  constructor
  · exact (applyFieldStep_type_errors testRegistered tkNone freshState "a"
      { type := JsVal.vInt 1 }).1 (fun s h => JsVal.noConfusion h)
  · exact (applyFieldStep_type_errors testRegistered tkNone freshState "a"
      { type := JsVal.vStr "Unknown" }).2 "Unknown" rfl rfl

/-- C7: when `validation.proxy` and `validation.method` are both strings
and the cleaned proxy expression evaluates to a function, the attached
validator is the `AsyncValidator` built around the proxy, and its
validation function is not re-entrant: a call made while
`__asyncInProgress` is set changes nothing (in particular it starts no
proxy invocation), and the only event that clears the flag is the proxy's
callback delivering the validity result. -/
theorem asyncValidator_no_reentrancy (tk : Toolkit) (v : Validation) (p m : String)
    (hp : v.proxy = some p) (hm : v.method = some m)
    (he : tk.proxyEvalOk (cleanProxy p) = true)
    (hf : tk.proxyIsFunction (cleanProxy p) = true) :
    (resolveValidator tk (some v)).1 = Validator.asyncProxy m v.invalidMessage ∧
    (∀ st : AsyncVState, st.inProgress = true →
      asyncStep st AsyncEvent.validate = st) ∧
    (∀ (st : AsyncVState) (e : AsyncEvent), (asyncStep st e).inProgress = false →
      st.inProgress = false ∨ ∃ b, e = AsyncEvent.deliver b) := by
  refine ⟨?_, ?_, ?_⟩
  · simp [resolveValidator, hp, hm, he, hf]
  · intro st h
    simp [asyncStep, validationFunc, h]
  · intro st e h
    cases e with
    | validate =>
      left
      by_cases hip : st.inProgress = true
      · simp [asyncStep, validationFunc, hip] at h
      · simpa using hip
    | deliver b => exact Or.inr ⟨b, rfl⟩

/-- Witness for C7 at a concrete proxy specification and an in-progress
validator state. -/
theorem asyncValidator_no_reentrancy_witness :
    (resolveValidator tkAll
        (some { proxy := some "window.proxyFn", method := some "check" })).1
      = Validator.asyncProxy "check" none ∧
    asyncStep { inProgress := true } AsyncEvent.validate = { inProgress := true } := by
  have h := asyncValidator_no_reentrancy tkAll
    { proxy := some "window.proxyFn", method := some "check" }
    "window.proxyFn" "check" rfl rfl rfl rfl
  exact ⟨h.1, h.2.1 { inProgress := true } rfl⟩

/-- C9: setting `formData` to null after a form was built disposes the old
controller and form and empties the form container but returns before the
model is touched: the model property still holds the previously created
model, it is not disposed, and `_formElements` is also left as it was. -/
theorem applyFormData_null_keeps_model (R : JsMap Handlers) (tk : Toolkit)
    (st : MFormState) (c : Controller) (f : FormObj) (m : Model) (fe : JsMap Element)
    (hc : st.formController = some c) (hf : st.form = some f) (hm : st.model = some m)
    (hfe : st.formElements = some fe) :
    _applyFormData R tk st none =
      ({ st with
          containerChildren := 0
          actions := st.actions ++
            [Action.removedModelBindings m.mid, Action.disposedController c.cid,
             Action.removedValidationBindings f.formId, Action.disposedForm f.formId,
             Action.containerEmptied] }, none) ∧
    (_applyFormData R tk st none).1.model = some m ∧
    (_applyFormData R tk st none).1.formElements = some fe ∧
    (∀ i, Action.disposedModel i ∉
      [Action.removedModelBindings m.mid, Action.disposedController c.cid,
       Action.removedValidationBindings f.formId, Action.disposedForm f.formId,
       Action.containerEmptied]) := by
  have heq : _applyFormData R tk st none =
      ({ st with
          containerChildren := 0
          actions := st.actions ++
            [Action.removedModelBindings m.mid, Action.disposedController c.cid,
             Action.removedValidationBindings f.formId, Action.disposedForm f.formId,
             Action.containerEmptied] }, none) := by
    simp only [_applyFormData, teardownPhase, hc, hf, hm, hfe]
    simp [hfe]
  refine ⟨heq, ?_, ?_, ?_⟩
  · rw [heq]; exact hm
  · rw [heq]; exact hfe
  · intro i
    simp

/-- Witness for C9: after building the form for `fdA`, a null re-apply
keeps the model. -/
theorem applyFormData_null_keeps_model_witness :
    (_applyFormData testRegistered tkNone stAfterA none).1.model
      = some { mid := 0, props := [("a", JsVal.vStr "x")] } ∧
    (_applyFormData testRegistered tkNone stAfterA none).1.formElements
      = stAfterA.formElements := by
  have h := applyFormData_null_keeps_model testRegistered tkNone stAfterA
    { cid := 2, modelId := 0 } (stAfterA.form.getD { formId := 0 })
    { mid := 0, props := [("a", JsVal.vStr "x")] } (stAfterA.formElements.getD [])
    (by decide) (by decide) (by decide) (by decide)
  refine ⟨h.2.1, ?_⟩
  rw [h.2.2.1]
  decide

/-- C6 (amended): for a string validator (with the async proxy path not
taken): a non-empty string that names a function on `qx.util.Validate`
yields the result of calling that factory; otherwise a non-empty string
starting with `"/"` yields the regular-expression validator built from the
string without its first and last characters together with
`validation.errorMessage`; otherwise, for a non-empty string, an
`"Invalid string validator."` error is reported and — because the code
never resets the variable — the invalid string itself remains the
validator that is then attached to the form; the empty string, being
falsy, fails the line-528 guard, so the whole block is skipped: nothing is
reported and null is attached. -/
theorem resolveValidator_string_spec (tk : Toolkit) (v : Validation) (s : String)
    (hv : v.validator = some (ValidatorSpec.vsStr s)) (hnp : v.proxy = none) :
    (s ≠ "" → tk.validateHas s = true →
      resolveValidator tk (some v) = (Validator.factory s, [])) ∧
    (s ≠ "" → tk.validateHas s = false → s.take 1 = "/" →
      resolveValidator tk (some v)
        = (Validator.regexpV ((s.drop 1).take (s.length - 2)) v.errorMessage, [])) ∧
    (s ≠ "" → tk.validateHas s = false → s.take 1 ≠ "/" →
      resolveValidator tk (some v)
        = (Validator.rawString s, [Action.errorLogged "Invalid string validator."])) ∧
    (s = "" → resolveValidator tk (some v) = (Validator.vnone, [])) := by
  refine ⟨?_, ?_, ?_, ?_⟩
  · intro h0 h1
    simp [resolveValidator, ValidatorSpec.isTruthy, hv, hnp, h0, h1]
  · intro h0 h1 h2
    simp [resolveValidator, ValidatorSpec.isTruthy, hv, hnp, h0, h1, h2]
  · intro h0 h1 h2
    simp [resolveValidator, ValidatorSpec.isTruthy, hv, hnp, h0, h1, h2]
  · intro h0
    simp [resolveValidator, ValidatorSpec.isTruthy, hv, hnp, h0]

/-- Witness for C6 at concrete validator strings for all four branches. -/
theorem resolveValidator_string_spec_witness :
    resolveValidator tkAll (some { validator := some (ValidatorSpec.vsStr "email") })
      = (Validator.factory "email", []) ∧
    resolveValidator tkNone (some { validator := some (ValidatorSpec.vsStr "/ab+/"),
                                    errorMessage := some "bad" })
      = (Validator.regexpV "ab+" (some "bad"), []) ∧
    resolveValidator tkNone (some { validator := some (ValidatorSpec.vsStr "bogus") })
      = (Validator.rawString "bogus",
         [Action.errorLogged "Invalid string validator."]) ∧
    resolveValidator tkNone (some { validator := some (ValidatorSpec.vsStr "") })
      = (Validator.vnone, []) := by
  refine ⟨?_, ?_, ?_, ?_⟩
  · exact (resolveValidator_string_spec tkAll
      { validator := some (ValidatorSpec.vsStr "email") } "email" rfl rfl).1
      (by decide) rfl
  · exact (resolveValidator_string_spec tkNone
      { validator := some (ValidatorSpec.vsStr "/ab+/"), errorMessage := some "bad" }
      "/ab+/" rfl rfl).2.1 (by decide) rfl (by decide)
  · exact (resolveValidator_string_spec tkNone
      { validator := some (ValidatorSpec.vsStr "bogus") } "bogus" rfl rfl).2.2.1
      (by decide) rfl (by decide)
  · exact (resolveValidator_string_spec tkNone
      { validator := some (ValidatorSpec.vsStr "") } "" rfl rfl).2.2.2 rfl

/-- Counterexample for C6 as stated: for the invalid string validator
`"bogus"` the code logs the error but still passes the string itself as
the validator to `this._form.add` — a validator is attached, namely the
raw string, not nothing. -/
theorem resolveValidator_invalid_string_cex :
    ((applyFieldStep testRegistered tkNone builtFormState "name"
        { type := JsVal.vStr "TextField",
          validation := some { validator := some (ValidatorSpec.vsStr "bogus") } }).1.form.getD
        { formId := 99 }).entries.map (fun t => t.2.2)
      = [Validator.rawString "bogus"] ∧
    Validator.rawString "bogus" ≠ Validator.vnone ∧
    Action.errorLogged "Invalid string validator." ∈
      (applyFieldStep testRegistered tkNone builtFormState "name"
        { type := JsVal.vStr "TextField",
          validation := some { validator := some (ValidatorSpec.vsStr "bogus") } }).1.actions := by
  refine ⟨by decide, by decide, by decide⟩

/-- C2: for a field whose `type` is a registered string type and whose
`initElement` handler returns an element, the loop iteration records the
key in the element's user data, adds the configured element to the
internal form with label `fieldData.label || ""` and the resolved
validator, records the element in `_formElements` under the key, and the
loop processes the map's own keys head-first in order. -/
theorem applyFieldStep_builds (R : JsMap Handlers) (tk : Toolkit) (st : MFormState)
    (key : String) (fd : FieldData) (s : String) (h : Handlers) (e0 : Element) (f : FormObj)
    (htype : fd.type = JsVal.vStr s)
    (hreg : jsGet R (jsToLower s) = some h)
    (hie : h.initElement (jsToLower s) fd key st.nextId = some e0)
    (hform : st.form = some f) :
    (applyFieldStep R tk st key fd).2 = none ∧
    (applyFieldStep R tk st key fd).1.formElements
      = some (jsSet (st.formElements.getD []) key (configureElement fd key e0)) ∧
    (applyFieldStep R tk st key fd).1.form
      = some { formId := f.formId
               entries := f.entries ++ [(configureElement fd key e0, labelOrEmpty fd.label,
                 (resolveValidator tk fd.validation).1)] } ∧
    (fd.userdata = none →
      jsGet (configureElement fd key e0).userData "key" = some (JsVal.vStr key)) ∧
    (fd.label = none → labelOrEmpty fd.label = "") ∧
    (∃ t, (applyFieldStep R tk st key fd).1.actions
      = st.actions ++ [Action.calledInitElement (jsToLower s) key] ++ t) ∧
    (∀ (st0 : MFormState) (kv : String × FieldData) (rest : List (String × FieldData)),
      applyFields R tk st0 (kv :: rest)
        = (match (applyFieldStep R tk st0 kv.1 kv.2).2 with
           | some e => ((applyFieldStep R tk st0 kv.1 kv.2).1, some e)
           | none => applyFields R tk (applyFieldStep R tk st0 kv.1 kv.2).1 rest)) := by
  have hstep : applyFieldStep R tk st key fd =
      ({ st with
          nextId := st.nextId + 1
          actions := st.actions ++
            ([Action.calledInitElement (jsToLower s) key]
             ++ (if h.addToFormController then
                  [Action.calledAddToFormController (jsToLower s) key] else [])
             ++ (resolveValidator tk fd.validation).2
             ++ (if h.postProcess then [Action.calledPostProcess (jsToLower s) key] else [])
             ++ eventActions tk key e0.elemId fd.events)
          form := st.form.map (fun f =>
            { f with entries := f.entries ++
                [(configureElement fd key e0, labelOrEmpty fd.label,
                  (resolveValidator tk fd.validation).1)] })
          formElements := some (jsSet (st.formElements.getD []) key
            (configureElement fd key e0)) }, none) := by
    simp [applyFieldStep, htype, hreg, hie]
  refine ⟨by rw [hstep], by rw [hstep], ?_, ?_, ?_, ?_, ?_⟩
  · rw [hstep]
    simp [hform]
  · intro hud
    rw [configureElement_userData fd key e0 hud]
    exact jsGet_jsSet_self e0.userData "key" (JsVal.vStr key)
  · intro hl
    rw [hl]
    rfl
  · rw [hstep]
    refine ⟨(if h.addToFormController then
          [Action.calledAddToFormController (jsToLower s) key] else [])
        ++ (resolveValidator tk fd.validation).2
        ++ (if h.postProcess then [Action.calledPostProcess (jsToLower s) key] else [])
        ++ eventActions tk key e0.elemId fd.events, ?_⟩
    simp [List.append_assoc]
  · intro st0 kv rest
    cases h2 : (applyFieldStep R tk st0 kv.1 kv.2).2 <;> simp [applyFields, h2]

/-- Witness for C2 at a concrete TextField field with no label. -/
theorem applyFieldStep_builds_witness :
    (applyFieldStep testRegistered tkNone builtFormState "user"
        { type := JsVal.vStr "TextField" }).2 = none ∧
    jsGet (configureElement { type := JsVal.vStr "TextField" } "user"
        { elemId := builtFormState.nextId }).userData "key" = some (JsVal.vStr "user") ∧
    labelOrEmpty (FieldData.label { type := JsVal.vStr "TextField" }) = "" := by
  have h := applyFieldStep_builds testRegistered tkNone builtFormState "user"
    { type := JsVal.vStr "TextField" } "TextField" testHandlers
    { elemId := builtFormState.nextId } (builtFormState.form.getD { formId := 99 })
    rfl rfl rfl (by decide)
  exact ⟨h.1, h.2.2.2.1 rfl, h.2.2.2.2.1 rfl⟩

/-- C4: for every non-null `formData`, `_applyFormData` sets the model
property to a fresh model whose properties are exactly the map's keys,
each initialized to `formData[key].value` when defined and `null`
otherwise, and creates a new object controller around exactly that
model. -/
theorem applyFormData_model_spec (R : JsMap Handlers) (tk : Toolkit)
    (st : MFormState) (fd : JsMap FieldData) (hnd : (jsKeys fd).Nodup) :
    (_applyFormData R tk st (some fd)).1.model
        = some { mid := st.nextId, props := buildModelData fd } ∧
    jsKeys (buildModelData fd) = jsKeys fd ∧
    (∀ k fdk, jsGet fd k = some fdk →
      jsGet (buildModelData fd) k
        = some (if fdk.value = JsVal.vUndef then JsVal.vNull else fdk.value)) ∧
    (_applyFormData R tk st (some fd)).1.formController
        = some { cid := st.nextId + 2, modelId := st.nextId } ∧
    (∀ m0, st.model = some m0 → m0.mid < st.nextId →
      (_applyFormData R tk st (some fd)).1.model ≠ some m0) := by
  obtain ⟨hm, hc, -, -, -⟩ := applyFormData_some_spec R tk st fd
  refine ⟨hm, ?_, ?_, hc, ?_⟩
  · rw [buildModelData_eq fd hnd]
    simp [jsKeys]
  · intro k fdk hget
    rw [buildModelData_eq fd hnd]
    rw [jsGet_map_value (fun v : FieldData =>
      if v.value = JsVal.vUndef then JsVal.vNull else v.value) fd k, hget]
    rfl
  · intro m0 hm0 hlt heq
    rw [hm] at heq
    have : st.nextId = m0.mid := congrArg (fun o => (o.getD { mid := 0, props := [] }).mid) heq
    omega

/-- Witness for C4 at the concrete map `fdA` applied to a fresh dialog. -/
theorem applyFormData_model_spec_witness :
    (_applyFormData testRegistered tkNone freshState (some fdA)).1.model
      = some { mid := freshState.nextId, props := buildModelData fdA } ∧
    jsKeys (buildModelData fdA) = jsKeys fdA := by
  have h := applyFormData_model_spec testRegistered tkNone freshState fdA (by decide)
  exact ⟨h.1, h.2.1⟩

/-- C1 (amended): re-applying a non-null `formData` over a previous
application first performs the full teardown in source order (old model
bindings removed and controller disposed, old form's validation bindings
removed and form disposed, container emptied, model bindings removed and
model disposed); afterwards the model, the controller and the form are
freshly rebuilt from the new map — but `_formElements` is not cleared: it
is the previous element map updated with the new form's elements, so every
previously present key is still present, and every present key comes from
the previous map or from the new `formData`. -/
theorem applyFormData_rebuild_amended (R : JsMap Handlers) (tk : Toolkit)
    (st : MFormState) (fd : JsMap FieldData)
    (c : Controller) (f : FormObj) (m : Model) (fe : JsMap Element)
    (hc : st.formController = some c) (hf : st.form = some f) (hm : st.model = some m)
    (hfe : st.formElements = some fe)
    (herr : (_applyFormData R tk st (some fd)).2 = none) :
    (∃ t, (_applyFormData R tk st (some fd)).1.actions = st.actions ++
      [Action.removedModelBindings m.mid, Action.disposedController c.cid,
       Action.removedValidationBindings f.formId, Action.disposedForm f.formId,
       Action.containerEmptied,
       Action.removedModelBindings m.mid, Action.disposedModel m.mid] ++ t) ∧
    (_applyFormData R tk st (some fd)).1.model
        = some { mid := st.nextId, props := buildModelData fd } ∧
    (_applyFormData R tk st (some fd)).1.formController
        = some { cid := st.nextId + 2, modelId := st.nextId } ∧
    (∃ ents, (_applyFormData R tk st (some fd)).1.form
        = some { formId := st.nextId + 1, entries := ents } ∧ ents.length ≤ fd.length) ∧
    (∀ k, (jsGet fe k).isSome = true →
      (jsGet ((_applyFormData R tk st (some fd)).1.formElements.getD []) k).isSome = true) ∧
    (∀ k, (jsGet ((_applyFormData R tk st (some fd)).1.formElements.getD []) k).isSome = true →
      (jsGet fe k).isSome = true ∨ k ∈ jsKeys fd) := by
  obtain ⟨hmodel, hctrl, hformE, hmono, hfrom⟩ := applyFormData_some_spec R tk st fd
  have hfeD : st.formElements.getD [] = fe := by rw [hfe]; rfl
  refine ⟨applyFormData_teardown_actions R tk st fd c f m hc hf hm,
    hmodel, hctrl, hformE, ?_, ?_⟩
  · intro k hk
    exact hmono k (by rw [hfeD]; exact hk)
  · intro k hk
    rcases hfrom k hk with h1 | h2
    · exact Or.inl (by rw [hfeD] at h1; exact h1)
    · exact Or.inr h2

/-- Counterexample for C1 as stated: after building the form for `fdA`
(single field `"a"`) and successfully re-applying `fdB` (single field
`"b"`), `_formElements` holds the keys `["a", "b"]`, not exactly the
fields of the new map — the stale entry for `"a"` survives because
`_formElements` is only reset in `_init`, never on re-application. -/
theorem applyFormData_stale_elements_cex :
    (_applyFormData testRegistered tkNone stAfterA (some fdB)).2 = none ∧
    jsKeys fdB = ["b"] ∧
    jsKeys (stAfterB.formElements.getD []) = ["a", "b"] ∧
    jsKeys (stAfterB.formElements.getD []) ≠ jsKeys fdB := by
  refine ⟨by decide, by decide, by decide, by decide⟩

/-- Witness for C1 (amended) at the concrete re-application of `fdB` over
the state built from `fdA`. -/
theorem applyFormData_rebuild_amended_witness :
    (_applyFormData testRegistered tkNone stAfterA (some fdB)).1.model
      = some { mid := stAfterA.nextId, props := buildModelData fdB } ∧
    (_applyFormData testRegistered tkNone stAfterA (some fdB)).1.formController
      = some { cid := stAfterA.nextId + 2, modelId := stAfterA.nextId } := by
  have h := applyFormData_rebuild_amended testRegistered tkNone stAfterA fdB
    { cid := 2, modelId := 0 } (stAfterA.form.getD { formId := 0 })
    { mid := 0, props := [("a", JsVal.vStr "x")] } (stAfterA.formElements.getD [])
    (by decide) (by decide) (by decide) (by decide) (by decide)
  exact ⟨h.2.1, h.2.2.1⟩

/-- C8: the code contradicts its own intent here.  A user registration for
field type `"Spinner"` (stored, down-cased, under `"spinner"`) made before
the first `_init` is nevertheless overwritten by the internal
registration: the don't-overwrite check looks up the misspelled table key
`"spiinner"`, never finds it, and so calls the Spinner class's
`register()`, which overwrites the `"spinner"` entry (internal handler
identity 10 replaces the user's 100). -/
theorem initRegister_spinner_overwrites_user :
    (jsGet (registerFormElementHandlers [] "Spinner" testHandlers) "spinner").map
        Handlers.hid = some 100 ∧
    (jsGet (initRegister
        { registered := registerFormElementHandlers [] "Spinner" testHandlers
          internalTable := some _internalFormElements }).registered "spinner").map
        Handlers.hid = some 10 ∧
    (jsGet (initRegister
        { registered := registerFormElementHandlers [] "Spinner" testHandlers
          internalTable := some _internalFormElements }).registered "spiinner").isSome
      = false := by
  refine ⟨rfl, rfl, rfl⟩

/-- C10 (amended): `_internalFormElements` does store the Spinner class
under the misspelled key `"spiinner"`, but the registration that key
triggers registers the class's handlers under `"spinner"`, so a `formData`
entry with type `"Spinner"` resolves normally and `_applyFormData` throws
no unknown-field-type error; the typo's only effect is that a
user-provided `"spinner"` registration made before `_init` is not detected
by the skip check and gets overwritten. -/
theorem spinner_type_accepted :
    (jsGet stdRegistered "spinner").isSome = true ∧
    (jsGet stdRegistered "spiinner").isSome = false ∧
    jsToLower "Spinner" = "spinner" ∧
    (_applyFormData stdRegistered tkNone freshState (some spinnerFormData)).2 = none ∧
    jsKeys ((_applyFormData stdRegistered tkNone freshState
        (some spinnerFormData)).1.formElements.getD []) = ["quantity"] := by
  refine ⟨rfl, rfl, by decide, rfl, by decide⟩

/-- Counterexample for C10 as stated: applying a `formData` map that
contains an entry of type `"Spinner"` does not throw at all — in
particular it does not throw the unknown-field-type error for
`"spinner"`. -/
theorem spinner_no_unknown_error_cex :
    (_applyFormData stdRegistered tkNone freshState (some spinnerFormData)).2 = none ∧
    (_applyFormData stdRegistered tkNone freshState (some spinnerFormData)).2
      ≠ some ("Field type " ++ jsToLower "Spinner" ++ " is unknown") := by
  refine ⟨rfl, by decide⟩

end QxlDialog
